import Mathlib

/-!
Verification of the HIL bridge core of `sitl_gazebo`
(`src/include/gazebo_mavlink_interface.h`).

The repository ships only the class header; the member-function bodies are
not part of the sources. Where a definition below embeds code that is
present in the header (the `n_out_max` bound, the `static constexpr`
vision-noise parameters, the default-constructed `std::default_random_engine
rand_`), its doc comment says so. Everything else is modelled from the
specification, as the doc comments state.

Sections: Protocol Codec, Rate Gate, Noise Model, Actuation Mapper,
Actuator-command slot and Inbound Poller, Update Coordinator, Random engine.
-/

/-! ### Byte-level serialization helpers -/

/-- Little-endian serialization of `n` into exactly `w` bytes. -/
def bytesLE : Nat → Nat → List Nat
  | 0, _ => []
  | w + 1, n => n % 256 :: bytesLE w (n / 256)

/-- Little-endian value of a byte list. -/
def natLE : List Nat → Nat
  | [] => 0
  | b :: bs => b + 256 * natLE bs

theorem bytesLE_length (w n : Nat) : (bytesLE w n).length = w := by
  induction w generalizing n with
  | zero => rfl
  | succ k ih => simp [bytesLE, ih]

theorem natLE_bytesLE (w n : Nat) (h : n < 256 ^ w) :
    natLE (bytesLE w n) = n := by
  induction w generalizing n with
  | zero =>
    simp [Nat.pow_zero] at h
    simp [bytesLE, natLE, h]
  | succ k ih =>
    have hdiv : n / 256 < 256 ^ k := by
      rw [Nat.div_lt_iff_lt_mul (by omega)]
      calc n < 256 ^ (k + 1) := h
        _ = 256 ^ k * 256 := by rw [Nat.pow_succ]
    simp only [bytesLE, natLE, ih (n / 256) hdiv]
    omega

/-- Read `w` bytes little-endian from the front of a buffer. -/
def rdN (w : Nat) (b : List Nat) : Option (Nat × List Nat) :=
  if w ≤ b.length then some (natLE (b.take w), b.drop w) else none

theorem take_append_len (l₁ l₂ : List Nat) : (l₁ ++ l₂).take l₁.length = l₁ := by
  induction l₁ with
  | nil => rfl
  | cons a as ih => simp [List.take, ih]

theorem drop_append_len (l₁ l₂ : List Nat) : (l₁ ++ l₂).drop l₁.length = l₂ := by
  induction l₁ with
  | nil => rfl
  | cons a as ih => simp [List.drop, ih]

theorem take_eq_of_length (l₁ l₂ : List Nat) (w : Nat) (h : l₁.length = w) :
    (l₁ ++ l₂).take w = l₁ := by
  subst h; exact take_append_len l₁ l₂

theorem drop_eq_of_length (l₁ l₂ : List Nat) (w : Nat) (h : l₁.length = w) :
    (l₁ ++ l₂).drop w = l₂ := by
  subst h; exact drop_append_len l₁ l₂

theorem rdN_bytesLE (w n : Nat) (rest : List Nat) (h : n < 256 ^ w) :
    rdN w (bytesLE w n ++ rest) = some (n, rest) := by
  have hlen : (bytesLE w n).length = w := bytesLE_length w n
  have hle : w ≤ (bytesLE w n ++ rest).length := by
    simp [List.length_append, hlen]
  simp only [rdN, if_pos hle, take_eq_of_length _ rest w hlen,
    drop_eq_of_length _ rest w hlen, natLE_bytesLE w n h]

theorem rdN_bytesLE_nil (w n : Nat) (h : n < 256 ^ w) :
    rdN w (bytesLE w n) = some (n, []) := by
  have := rdN_bytesLE w n [] h
  rwa [List.append_nil] at this

/-- Read `cnt` fields of `w` bytes each. -/
def rdMany (w : Nat) : Nat → List Nat → Option (List Nat × List Nat)
  | 0, b => some ([], b)
  | c + 1, b =>
    match rdN w b with
    | none => none
    | some (v, b1) =>
      match rdMany w c b1 with
      | none => none
      | some (vs, b2) => some (v :: vs, b2)

theorem rdMany_bind (w : Nat) (vs : List Nat) (rest : List Nat)
    (h : ∀ v ∈ vs, v < 256 ^ w) :
    rdMany w vs.length ((vs.flatMap (bytesLE w)) ++ rest) = some (vs, rest) := by
  induction vs with
  | nil => simp [rdMany]
  | cons v tl ih =>
    have hv : v < 256 ^ w := h v (List.mem_cons_self v tl)
    have htl : ∀ x ∈ tl, x < 256 ^ w := fun x hx => h x (List.mem_cons_of_mem v hx)
    simp only [List.flatMap_cons, List.length_cons, List.append_assoc]
    simp only [rdMany, rdN_bytesLE w v _ hv, ih htl]

/-! ### Protocol Codec -/

/-- Modelled from the spec: the member-function bodies of
`GazeboMavlinkInterface` (in particular the MAVLink encode/decode paths
behind `send_mavlink_message` and `handle_message`,
`src/include/gazebo_mavlink_interface.h:169-171`) are not in the sources;
the in-memory message records are the spec's supported kinds: sensor
telemetry, GPS, ground truth, heartbeat/time-sync, actuator-control array. -/
inductive Message
  | heartbeat (timeUsec : Nat)
  | sensor (xacc yacc zacc xgyro ygyro zgyro : Nat)
  | gps (lat lon alt : Nat) (vel : Nat) (fix : Nat)
  | groundtruth (lat lon alt : Nat)
  | actuator (seqn : Nat) (controls : List Nat)
  deriving DecidableEq

/-- Modelled from the spec: the wire envelope header carries sequence,
system and component identifiers next to the typed payload. -/
structure Frame where
  seqn : Nat
  sysid : Nat
  compid : Nat
  msg : Message
  deriving DecidableEq

/-- Numeric message identifier of each record kind. -/
def msgId : Message → Nat
  | .heartbeat _ => 0
  | .sensor _ _ _ _ _ _ => 107
  | .gps _ _ _ _ _ => 113
  | .groundtruth _ _ _ => 115
  | .actuator _ _ => 93

/-- Modelled from the spec: fixed-schema little-endian payload of each
message kind. -/
def encodePayload : Message → List Nat
  | .heartbeat t => bytesLE 8 t
  | .sensor a b c d e f => [a, b, c, d, e, f].flatMap (bytesLE 4)
  | .gps la lo al v fx =>
    ([la, lo, al].flatMap (bytesLE 4)) ++ bytesLE 2 v ++ bytesLE 1 fx
  | .groundtruth la lo al => [la, lo, al].flatMap (bytesLE 4)
  | .actuator s cs => bytesLE 4 s ++ bytesLE 1 cs.length ++ cs.flatMap (bytesLE 2)

/-- Trailing integrity check: byte sum reduced to 16 bits. -/
def chksum (body : List Nat) : Nat := (body.foldl (· + ·) 0) % 65536

/-- Modelled from the spec: encoding builds magic byte, payload length,
sequence/system/component identifiers, message id, payload, then appends
the two-byte integrity check over the preceding bytes. -/
def encode (f : Frame) : List Nat :=
  let pl := encodePayload f.msg
  let body := 253 :: pl.length :: f.seqn :: f.sysid :: f.compid :: msgId f.msg :: pl
  body ++ bytesLE 2 (chksum body)

/-- Decode error taxonomy of the spec. -/
inductive DecodeError
  | MalformedMessage
  | UnknownMessageId
  | TruncatedPayload
  deriving DecidableEq

/-- Modelled from the spec: per-kind payload parser; an unrecognized
message id fails with `UnknownMessageId`, a payload inconsistent with its
schema with `MalformedMessage`. -/
def decodePayload (msgid : Nat) (p : List Nat) : Except DecodeError Message :=
  if msgid = 0 then
    match rdN 8 p with
    | some (t, []) => .ok (.heartbeat t)
    | _ => .error .MalformedMessage
  else if msgid = 107 then
    match rdMany 4 6 p with
    | some ([a, b, c, d, e, f], []) => .ok (.sensor a b c d e f)
    | _ => .error .MalformedMessage
  else if msgid = 113 then
    match rdMany 4 3 p with
    | some ([la, lo, al], p1) =>
      match rdN 2 p1 with
      | some (v, p2) =>
        match rdN 1 p2 with
        | some (fx, []) => .ok (.gps la lo al v fx)
        | _ => .error .MalformedMessage
      | _ => .error .MalformedMessage
    | _ => .error .MalformedMessage
  else if msgid = 115 then
    match rdMany 4 3 p with
    | some ([la, lo, al], []) => .ok (.groundtruth la lo al)
    | _ => .error .MalformedMessage
  else if msgid = 93 then
    match rdN 4 p with
    | some (s, p1) =>
      match rdN 1 p1 with
      | some (cnt, p2) =>
        match rdMany 2 cnt p2 with
        | some (cs, []) => .ok (.actuator s cs)
        | _ => .error .MalformedMessage
      | _ => .error .MalformedMessage
    | _ => .error .MalformedMessage
  else .error .UnknownMessageId

/-- Modelled from the spec: decoding checks buffer length against the
declared payload length (`TruncatedPayload` on short buffers), verifies the
trailing integrity check (`MalformedMessage` on mismatch) and dispatches on
the message id (`UnknownMessageId` on unrecognized types). -/
def decode (buf : List Nat) : Except DecodeError Frame :=
  match buf with
  | magic :: len :: s :: y :: c :: i :: rest =>
    if magic ≠ 253 then .error .MalformedMessage
    else if rest.length < len + 2 then .error .TruncatedPayload
    else
      let payload := rest.take len
      let body := magic :: len :: s :: y :: c :: i :: payload
      if natLE ((rest.drop len).take 2) ≠ chksum body then .error .MalformedMessage
      else
        match decodePayload i payload with
        | .error e => .error e
        | .ok m => .ok ⟨s, y, c, m⟩
  | _ => .error .TruncatedPayload

/-- Validity of a frame: every field fits its wire width and the
actuator-control array respects the 16-channel capacity. -/
def ValidMsg : Message → Prop
  | .heartbeat t => t < 256 ^ 8
  | .sensor a b c d e f =>
    a < 256 ^ 4 ∧ b < 256 ^ 4 ∧ c < 256 ^ 4 ∧ d < 256 ^ 4 ∧ e < 256 ^ 4 ∧ f < 256 ^ 4
  | .gps la lo al v fx =>
    la < 256 ^ 4 ∧ lo < 256 ^ 4 ∧ al < 256 ^ 4 ∧ v < 256 ^ 2 ∧ fx < 256
  | .groundtruth la lo al => la < 256 ^ 4 ∧ lo < 256 ^ 4 ∧ al < 256 ^ 4
  | .actuator s cs => s < 256 ^ 4 ∧ cs.length ≤ 16 ∧ ∀ v ∈ cs, v < 256 ^ 2

instance : DecidablePred ValidMsg := by
  intro m
  cases m <;> simp only [ValidMsg] <;> infer_instance

def ValidFrame (f : Frame) : Prop :=
  f.seqn < 256 ∧ f.sysid < 256 ∧ f.compid < 256 ∧ ValidMsg f.msg

instance : DecidablePred ValidFrame := by
  intro f
  unfold ValidFrame
  infer_instance

theorem decode_frame_eq (s y c i : Nat) (pl : List Nat) (ck : Nat) (hck : ck < 65536) :
    decode ((253 :: pl.length :: s :: y :: c :: i :: pl) ++ bytesLE 2 ck) =
      if ck = chksum (253 :: pl.length :: s :: y :: c :: i :: pl) then
        match decodePayload i pl with
        | .error e => .error e
        | .ok m => .ok ⟨s, y, c, m⟩
      else .error .MalformedMessage := by
  have hlen2 : (bytesLE 2 ck).length = 2 := bytesLE_length 2 ck
  have hrest : (pl ++ bytesLE 2 ck).length = pl.length + 2 := by
    rw [List.length_append, hlen2]
  have htk : (pl ++ bytesLE 2 ck).take pl.length = pl := take_append_len _ _
  have hdp : (pl ++ bytesLE 2 ck).drop pl.length = bytesLE 2 ck := drop_append_len _ _
  have htk2 : (bytesLE 2 ck).take 2 = bytesLE 2 ck := by
    apply List.take_of_length_le
    rw [hlen2]
  simp only [List.cons_append, decode]
  rw [if_neg (by simp)]
  rw [if_neg (by rw [hrest]; omega)]
  rw [htk, hdp, htk2, natLE_bytesLE 2 ck hck]
  by_cases hc : ck = chksum (253 :: pl.length :: s :: y :: c :: i :: pl)
  · rw [if_neg (by simp [hc]), if_pos hc]
  · rw [if_pos (by simpa using hc), if_neg hc]

theorem decodePayload_encodePayload (m : Message) (hm : ValidMsg m) :
    decodePayload (msgId m) (encodePayload m) = .ok m := by
  cases m with
  | heartbeat t =>
    simp [msgId, encodePayload, decodePayload, rdN_bytesLE_nil 8 t hm]
  | sensor a b c d e f =>
    obtain ⟨h1, h2, h3, h4, h5, h6⟩ := hm
    have hb : ∀ v ∈ [a, b, c, d, e, f], v < 256 ^ 4 := by
      intro v hv
      simp only [List.mem_cons, List.not_mem_nil, or_false] at hv
      rcases hv with rfl | rfl | rfl | rfl | rfl | rfl <;> assumption
    have hr := rdMany_bind 4 [a, b, c, d, e, f] [] hb
    simp only [List.flatMap_cons, List.flatMap_nil, List.append_nil, List.append_assoc,
      List.length_cons, List.length_nil] at hr
    norm_num at hr
    simp [msgId, encodePayload, decodePayload, hr]
  | gps la lo al v fx =>
    obtain ⟨h1, h2, h3, h4, h5⟩ := hm
    have hb : ∀ x ∈ [la, lo, al], x < 256 ^ 4 := by
      intro x hx
      simp only [List.mem_cons, List.not_mem_nil, or_false] at hx
      rcases hx with rfl | rfl | rfl <;> assumption
    have hr := rdMany_bind 4 [la, lo, al] (bytesLE 2 v ++ bytesLE 1 fx) hb
    simp only [List.flatMap_cons, List.flatMap_nil, List.append_nil, List.append_assoc,
      List.length_cons, List.length_nil] at hr
    norm_num at hr
    have hv2 := rdN_bytesLE 2 v (bytesLE 1 fx) h4
    have hf1 := rdN_bytesLE_nil 1 fx (by simpa using h5)
    simp [msgId, encodePayload, decodePayload, hr, hv2, hf1]
  | groundtruth la lo al =>
    obtain ⟨h1, h2, h3⟩ := hm
    have hb : ∀ x ∈ [la, lo, al], x < 256 ^ 4 := by
      intro x hx
      simp only [List.mem_cons, List.not_mem_nil, or_false] at hx
      rcases hx with rfl | rfl | rfl <;> assumption
    have hr := rdMany_bind 4 [la, lo, al] [] hb
    simp only [List.flatMap_cons, List.flatMap_nil, List.append_nil, List.append_assoc,
      List.length_cons, List.length_nil] at hr
    norm_num at hr
    simp [msgId, encodePayload, decodePayload, hr]
  | actuator s cs =>
    obtain ⟨h1, h2, h3⟩ := hm
    have hs4 := rdN_bytesLE 4 s (bytesLE 1 cs.length ++ cs.flatMap (bytesLE 2)) h1
    have hcnt : cs.length < 256 ^ 1 := by simpa using Nat.lt_of_le_of_lt h2 (by norm_num)
    have hc1 := rdN_bytesLE 1 cs.length (cs.flatMap (bytesLE 2)) hcnt
    have hr := rdMany_bind 2 cs [] h3
    rw [List.append_nil] at hr
    simp [msgId, encodePayload, decodePayload, hs4, hc1, hr]

/-- C1: for every valid message record, encoding to the wire format and
decoding the resulting byte sequence yields the record back; `encode` is by
construction a total function on records, mapping each to one byte
sequence. -/
theorem spec_C1 (f : Frame) (h : ValidFrame f) : decode (encode f) = Except.ok f := by
  obtain ⟨hs, hy, hc, hm⟩ := h
  have hck : chksum (253 :: (encodePayload f.msg).length :: f.seqn :: f.sysid ::
      f.compid :: msgId f.msg :: encodePayload f.msg) < 65536 :=
    Nat.mod_lt _ (by norm_num)
  unfold encode
  rw [decode_frame_eq _ _ _ _ _ _ hck, if_pos rfl,
    decodePayload_encodePayload f.msg hm]

/-- C1 witness: a concrete GPS frame round-trips. -/
theorem spec_C1_witness :
    ValidFrame ⟨7, 1, 200, .gps 470000000 85000000 500000 33 3⟩ ∧
      decode (encode ⟨7, 1, 200, .gps 470000000 85000000 500000 33 3⟩) =
        Except.ok ⟨7, 1, 200, .gps 470000000 85000000 500000 33 3⟩ :=
  ⟨by decide, spec_C1 ⟨7, 1, 200, .gps 470000000 85000000 500000 33 3⟩ (by decide)⟩

/-! ### Actuator-command slot and Inbound Poller -/

/-- Modelled from the spec: the single-slot last-write-wins publication of
decoded actuator commands (the header only declares `handle_message` and
the freshness state `last_actuator_time_`,
`src/include/gazebo_mavlink_interface.h:170,215`): a command is accepted
only if its sequence number is strictly greater than the published one. -/
def publishStep (slot : Option (Nat × List Nat)) (seqn : Nat) (vals : List Nat) :
    Option (Nat × List Nat) × Bool :=
  match slot with
  | none => (some (seqn, vals), true)
  | some (ps, pv) => if ps < seqn then (some (seqn, vals), true) else (some (ps, pv), false)

/-- Sequence numbers of the commands a run of `publishStep` accepts. -/
def acceptedSeqs (slot : Option (Nat × List Nat)) : List (Nat × List Nat) → List Nat
  | [] => []
  | (q, vs) :: cmds =>
    match publishStep slot q vs with
    | (slot1, true) => q :: acceptedSeqs slot1 cmds
    | (slot1, false) => acceptedSeqs slot1 cmds

/-- State of the Inbound Poller: the shared actuator-command slot and a
count of dropped datagrams. -/
structure PollerState where
  slot : Option (Nat × List Nat)
  dropped : Nat
  deriving DecidableEq

/-- Modelled from the spec: one Inbound Poller iteration decodes a
datagram; on a decode error the datagram is dropped (a counter is
incremented) and the error is contained — the step returns normally with
the command slot unchanged. -/
def pollerStep (st : PollerState) (buf : List Nat) : PollerState :=
  match decode buf with
  | .error _ => { st with dropped := st.dropped + 1 }
  | .ok f =>
    match f.msg with
    | .actuator s cs => { st with slot := (publishStep st.slot s cs).1 }
    | _ => st

theorem decodePayload_unknown (i : Nat) (p : List Nat)
    (h0 : i ≠ 0) (h1 : i ≠ 107) (h2 : i ≠ 113) (h3 : i ≠ 115) (h4 : i ≠ 93) :
    decodePayload i p = .error .UnknownMessageId := by
  simp [decodePayload, h0, h1, h2, h3, h4]

/-- C4: a buffer shorter than the envelope header, or one whose remainder
is shorter than the declared payload plus integrity check, decodes to
`TruncatedPayload`; an unrecognized message id yields `UnknownMessageId`;
an integrity-check mismatch yields `MalformedMessage`; and on every decode
error the Inbound Poller step returns normally with the command slot
unchanged, merely counting the dropped datagram. -/
theorem spec_C4 :
    (∀ buf : List Nat, buf.length < 6 → decode buf = .error .TruncatedPayload) ∧
    (∀ l s y c i : Nat, ∀ rest : List Nat, rest.length < l + 2 →
      decode (253 :: l :: s :: y :: c :: i :: rest) = .error .TruncatedPayload) ∧
    (∀ s y c i : Nat, ∀ pl : List Nat,
      i ≠ 0 → i ≠ 107 → i ≠ 113 → i ≠ 115 → i ≠ 93 →
      decode ((253 :: pl.length :: s :: y :: c :: i :: pl) ++
          bytesLE 2 (chksum (253 :: pl.length :: s :: y :: c :: i :: pl))) =
        .error .UnknownMessageId) ∧
    (∀ s y c i ck : Nat, ∀ pl : List Nat, ck < 65536 →
      ck ≠ chksum (253 :: pl.length :: s :: y :: c :: i :: pl) →
      decode ((253 :: pl.length :: s :: y :: c :: i :: pl) ++ bytesLE 2 ck) =
        .error .MalformedMessage) ∧
    (∀ st : PollerState, ∀ buf : List Nat, ∀ e : DecodeError,
      decode buf = .error e →
      pollerStep st buf = { st with dropped := st.dropped + 1 }) := by
  refine ⟨?_, ?_, ?_, ?_, ?_⟩
  · intro buf h
    rcases buf with _ | ⟨b0, _ | ⟨b1, _ | ⟨b2, _ | ⟨b3, _ | ⟨b4, _ | ⟨b5, rest⟩⟩⟩⟩⟩⟩
    · rfl
    · rfl
    · rfl
    · rfl
    · rfl
    · rfl
    · simp only [List.length_cons] at h
      omega
  · intro l s y c i rest h
    simp only [decode]
    rw [if_neg (by simp), if_pos h]
  · intro s y c i pl h0 h1 h2 h3 h4
    have hck : chksum (253 :: pl.length :: s :: y :: c :: i :: pl) < 65536 :=
      Nat.mod_lt _ (by norm_num)
    rw [decode_frame_eq _ _ _ _ _ _ hck, if_pos rfl,
      decodePayload_unknown i pl h0 h1 h2 h3 h4]
  · intro s y c i ck pl hck hne
    rw [decode_frame_eq _ _ _ _ _ _ hck, if_neg hne]
  · intro st buf e h
    simp only [pollerStep, h]

/-- C4 witness: a concrete truncated datagram is rejected as
`TruncatedPayload` and dropped by the poller without touching the slot. -/
theorem spec_C4_witness :
    decode [253, 0, 0] = .error .TruncatedPayload ∧
      pollerStep ⟨some (5, [1]), 0⟩ [253, 0, 0] = ⟨some (5, [1]), 1⟩ :=
  ⟨spec_C4.1 [253, 0, 0] (by decide),
    spec_C4.2.2.2.2 ⟨some (5, [1]), 0⟩ [253, 0, 0] .TruncatedPayload
      (spec_C4.1 [253, 0, 0] (by decide))⟩

theorem chain_acceptedSeqs_some (cmds : List (Nat × List Nat)) :
    ∀ ps pv, List.Chain (· < ·) ps (acceptedSeqs (some (ps, pv)) cmds) := by
  induction cmds with
  | nil => intro ps pv; exact List.Chain.nil
  | cons c cmds ih =>
    intro ps pv
    obtain ⟨q, vs⟩ := c
    by_cases hlt : ps < q
    · simp only [acceptedSeqs, publishStep, if_pos hlt]
      exact List.Chain.cons hlt (ih q vs)
    · simp only [acceptedSeqs, publishStep, if_neg hlt]
      exact ih ps pv

theorem chain_of_chain_lt (a : Nat) (l : List Nat) (h : List.Chain (· < ·) a l) :
    List.Chain' (· < ·) l := by
  cases l with
  | nil => exact trivial
  | cons b t =>
    cases h with
    | cons hab hbt => exact hbt

/-- C6: over every sequence of received actuator commands the sequence
numbers of accepted (published) commands are strictly increasing, and a
command whose sequence number is lower than or equal to the published one
is discarded, leaving the published command in place. -/
theorem spec_C6 :
    (∀ slot : Option (Nat × List Nat), ∀ cmds : List (Nat × List Nat),
      List.Chain' (· < ·) (acceptedSeqs slot cmds)) ∧
    (∀ ps : Nat, ∀ pv : List Nat, ∀ q : Nat, ∀ vs : List Nat, q ≤ ps →
      publishStep (some (ps, pv)) q vs = (some (ps, pv), false)) := by
  constructor
  · intro slot cmds
    cases slot with
    | none =>
      cases cmds with
      | nil => exact trivial
      | cons c cmds =>
        obtain ⟨q, vs⟩ := c
        simp only [acceptedSeqs, publishStep]
        exact chain_acceptedSeqs_some cmds q vs
    | some p =>
      obtain ⟨ps, pv⟩ := p
      exact chain_of_chain_lt ps _ (chain_acceptedSeqs_some cmds ps pv)
  · intro ps pv q vs h
    simp only [publishStep, if_neg (by omega : ¬ ps < q)]

/-- C6 witness: a stale command with an equal sequence number is discarded
and does not overwrite the published command. -/
theorem spec_C6_witness :
    publishStep (some (5, [0, 0])) 5 [9, 9] = (some (5, [0, 0]), false) :=
  spec_C6.2 5 [0, 0] 5 [9, 9] (Nat.le_refl 5)

/-! ### Rate Gate -/

/-- Modelled from the spec: per-stream rate-gate state — configured
minimum interval and last-emit timestamp (the header only declares the
interval fields `ev_update_interval_`, `gps_update_interval_` and the
per-stream last-time members, `src/include/gazebo_mavlink_interface.h:212-225`). -/
structure RateGate where
  interval : ℚ
  lastEmit : ℚ
  deriving DecidableEq

/-- Modelled from the spec: a stream emits only if
`now - last_emit ≥ configured_interval`; on emit `last_emit ← now`,
otherwise the call is suppressed and the state unchanged. -/
def gateStep (g : RateGate) (now : ℚ) : RateGate × Bool :=
  if g.interval ≤ now - g.lastEmit then (⟨g.interval, now⟩, true) else (g, false)

/-- Timestamps of the emitted (non-suppressed) calls of a run. -/
def gateEmits (g : RateGate) : List ℚ → List ℚ
  | [] => []
  | t :: ts =>
    match gateStep g t with
    | (g1, true) => t :: gateEmits g1 ts
    | (g1, false) => gateEmits g1 ts

theorem chain_gateEmits (iv : ℚ) (ts : List ℚ) :
    ∀ last : ℚ, List.Chain (fun a b => iv ≤ b - a) last (gateEmits ⟨iv, last⟩ ts) := by
  induction ts with
  | nil => intro last; exact List.Chain.nil
  | cons t ts ih =>
    intro last
    by_cases h : iv ≤ t - last
    · simp only [gateEmits, gateStep, if_pos h]
      exact List.Chain.cons h (ih t)
    · simp only [gateEmits, gateStep, if_neg h]
      exact ih last

/-- C2: over every run of a stream's rate gate, each emitted sample (the
first relative to the initial last-emit timestamp, each later one relative
to its predecessor) is at least the configured interval after the previous
one; a call arriving before the interval has elapsed is suppressed with the
state unchanged, and an emitting call records its own time as the new
last-emit timestamp. -/
theorem spec_C2 :
    (∀ iv last : ℚ, ∀ ts : List ℚ,
      List.Chain (fun a b => iv ≤ b - a) last (gateEmits ⟨iv, last⟩ ts)) ∧
    (∀ g : RateGate, ∀ now : ℚ, now - g.lastEmit < g.interval →
      gateStep g now = (g, false)) ∧
    (∀ g : RateGate, ∀ now : ℚ, g.interval ≤ now - g.lastEmit →
      gateStep g now = (⟨g.interval, now⟩, true)) := by
  refine ⟨fun iv last ts => chain_gateEmits iv ts last, ?_, ?_⟩
  · intro g now h
    simp only [gateStep, if_neg (not_le.mpr h)]
  · intro g now h
    simp only [gateStep, if_pos h]

/-- C2 witness: with a 0.1 s gate whose last emission was at t = 1 s, a
second call 0.05 s later is suppressed and sends nothing. -/
theorem spec_C2_witness :
    gateStep ⟨1/10, 1⟩ (21/20) = (⟨1/10, 1⟩, false) :=
  spec_C2.2.1 ⟨1/10, 1⟩ (21/20) (by norm_num)

/-! ### Noise Model -/

/-- Modelled from the spec: the first-order correlation term decays the
bias toward zero with time constant τ (the member code updating `ev_bias`,
`src/include/gazebo_mavlink_interface.h:176-178`, is not in the sources). -/
noncomputable def evDecay (tau dt bias : ℝ) : ℝ := bias * Real.exp (-(dt / tau))

/-- Modelled from the spec: the random-walk increment
`sqrt(Δt) * random_walk_density * N(0,1)` added to the bias. -/
noncomputable def evWalk (rwd dt bias n1 : ℝ) : ℝ := bias + Real.sqrt dt * rwd * n1

/-- Modelled from the spec: one emitted sample of the noise pipeline —
decay is applied before the walk increment, and the emitted value is the
true value plus the updated bias plus `noise_density/sqrt(Δt) * N(0,1)`;
`Δt ≤ 0` suppresses the sample. Returns (updated bias, emitted value). -/
noncomputable def evEmit (tau rwd nd bias dt trueV n1 n2 : ℝ) : Option (ℝ × ℝ) :=
  if dt ≤ 0 then none
  else
    let b1 := evDecay tau dt bias
    let b2 := evWalk rwd dt b1 n1
    some (b2, trueV + b2 + nd / Real.sqrt dt * n2)

/-- C3: for every emitted sample with `Δt > 0`, the bias is first decayed
by `exp(-Δt/τ)` and then incremented by `sqrt(Δt) * random_walk_density *
n₁`, and the emitted value is the true value plus that updated bias plus
`noise_density / sqrt(Δt) * n₂`. -/
theorem spec_C3 (tau rwd nd bias dt trueV n1 n2 : ℝ) (h : 0 < dt) :
    evEmit tau rwd nd bias dt trueV n1 n2 =
      some (bias * Real.exp (-(dt / tau)) + Real.sqrt dt * rwd * n1,
        trueV + (bias * Real.exp (-(dt / tau)) + Real.sqrt dt * rwd * n1) +
          nd / Real.sqrt dt * n2) := by
  simp only [evEmit, evDecay, evWalk, if_neg (not_le.mpr h)]

/-- C3 witness: the pipeline at a concrete positive step emits and follows
the decay-then-walk form. -/
theorem spec_C3_witness :
    evEmit 60 2 (1/5000) 0 1 3 1 1 =
      some (0 * Real.exp (-(1 / 60)) + Real.sqrt 1 * 2 * 1,
        3 + (0 * Real.exp (-(1 / 60)) + Real.sqrt 1 * 2 * 1) +
          (1/5000) / Real.sqrt 1 * 1) :=
  spec_C3 60 2 (1/5000) 0 1 3 1 1 (by norm_num)

/-! ### Actuation Mapper -/

/-- Modelled from the spec: one actuation channel of the `JointMapping`
table; the header declares the per-channel arrays `input_index_`,
`input_scaling_`, `input_offset_`, `zero_position_armed_`,
`zero_position_disarmed_` (`src/include/gazebo_mavlink_interface.h:187-193`). -/
structure JointChannel where
  index : Nat
  scale : ℚ
  offset : ℚ
  zeroArmed : ℚ
  zeroDisarmed : ℚ
  deriving DecidableEq

/-- Modelled from the spec: per-channel output of the Actuation Mapper
(the body of `handle_control` is not in the sources): armed, the
normalized value is scaled and offset over the armed zero position;
unarmed, the channel is forced to its disarmed zero position. -/
def applyChannel (armed : Bool) (ch : JointChannel) (controls : List ℚ) : ℚ :=
  if armed then (controls.getD ch.index 0) * ch.scale + ch.offset + ch.zeroArmed
  else ch.zeroDisarmed

/-- Modelled from the spec: the Actuation Mapper applied to a whole table. -/
def applyMapper (armed : Bool) (table : List JointChannel) (controls : List ℚ) :
    List ℚ :=
  table.map (fun ch => applyChannel armed ch controls)

/-- C5: in the unarmed state every channel's output is its configured
disarmed zero position, whatever the incoming normalized command values. -/
theorem spec_C5 (table : List JointChannel) (controls : List ℚ) :
    applyMapper false table controls = table.map (fun ch => ch.zeroDisarmed) := by
  simp [applyMapper, applyChannel]

/-! ### JointMapping load-time validation -/

/-- Configuration-error taxonomy of the load-time channel validation. -/
inductive ConfigError
  | IndexOutOfRange
  | TooManyChannels
  deriving DecidableEq

/-- From the source: `static const unsigned n_out_max = 16;`
(`src/include/gazebo_mavlink_interface.h:173`), the size of every
per-channel array. -/
def n_out_max : Nat := 16

/-- Modelled from the spec: load-time validation of the `JointMapping`
table (the `Load` body that fills `input_index_` is not in the sources) —
a channel index outside `n_out_max` and a table of more than `n_out_max`
channels are configuration errors, not runtime faults. -/
def loadMapping : List JointChannel → Except ConfigError (List JointChannel)
  | [] => .ok []
  | c :: cs =>
    if c.index < n_out_max then
      match loadMapping cs with
      | .ok m =>
        if m.length + 1 ≤ n_out_max then .ok (c :: m) else .error .TooManyChannels
      | .error e => .error e
    else .error .IndexOutOfRange

/-- C7: a successfully loaded mapping has at most `n_out_max = 16`
channels, all with in-range indices, and a channel whose index is out of
range is rejected at load time with a configuration error. -/
theorem spec_C7 :
    (∀ cfgs m : List JointChannel, loadMapping cfgs = .ok m →
      m.length ≤ n_out_max ∧ ∀ ch ∈ m, ch.index < n_out_max) ∧
    (∀ ch : JointChannel, ∀ cs : List JointChannel, n_out_max ≤ ch.index →
      loadMapping (ch :: cs) = .error .IndexOutOfRange) := by
  constructor
  · intro cfgs
    induction cfgs with
    | nil =>
      intro m h
      simp only [loadMapping, Except.ok.injEq] at h
      subst h
      exact ⟨by simp [n_out_max], by simp⟩
    | cons c cs ih =>
      intro m h
      by_cases hidx : c.index < n_out_max
      · simp only [loadMapping, if_pos hidx] at h
        cases hm : loadMapping cs with
        | error e => rw [hm] at h; simp at h
        | ok m0 =>
          simp only [hm] at h
          by_cases hlen : m0.length + 1 ≤ n_out_max
          · rw [if_pos hlen] at h
            simp only [Except.ok.injEq] at h
            subst h
            obtain ⟨hl0, hmem0⟩ := ih m0 hm
            refine ⟨by simpa using hlen, ?_⟩
            intro ch hch
            rcases List.mem_cons.mp hch with rfl | hch0
            · exact hidx
            · exact hmem0 ch hch0
          · rw [if_neg hlen] at h
            simp at h
      · simp only [loadMapping, if_neg hidx] at h
        simp at h
  · intro ch cs h
    simp only [loadMapping, if_neg (not_lt.mpr h)]

/-- C7 witness: a one-channel table with index 0 loads, has length ≤ 16
and only in-range indices. -/
theorem spec_C7_witness :
    ([⟨0, 1, 0, 0, 0⟩] : List JointChannel).length ≤ n_out_max ∧
      ∀ ch ∈ ([⟨0, 1, 0, 0, 0⟩] : List JointChannel), ch.index < n_out_max :=
  spec_C7.1 [⟨0, 1, 0, 0, 0⟩] [⟨0, 1, 0, 0, 0⟩] (by rfl)

/-! ### Vision-stream noise parameters (compile-time constants) -/

/-- From the source (`src/include/gazebo_mavlink_interface.h:181`):
`static constexpr double ev_corellation_time = 60.0;`. -/
def ev_corellation_time : ℚ := 60

/-- From the source (`src/include/gazebo_mavlink_interface.h:182`):
`static constexpr double ev_random_walk = 2.0;`. -/
def ev_random_walk : ℚ := 2

/-- From the source (`src/include/gazebo_mavlink_interface.h:183`):
`static constexpr double ev_noise_density = 2e-4;`. -/
def ev_noise_density : ℚ := 1/5000

/-- Modelled from the spec: the per-stream noise parameters the
configuration surface would request (τ, random-walk density, noise
density). -/
structure NoiseConfig where
  tau : ℚ
  rwDensity : ℚ
  nDensity : ℚ
  deriving DecidableEq

/-- From the source: the noise parameters the bridge actually uses for its
vision stream. They are `static constexpr` class constants
(`src/include/gazebo_mavlink_interface.h:180-183`), so they cannot depend
on any runtime configuration — the function ignores its argument exactly
as the compiled constants ignore the configuration surface. -/
def effectiveEvParams (_cfg : NoiseConfig) : ℚ × ℚ × ℚ :=
  (ev_corellation_time, ev_random_walk, ev_noise_density)

/-- C8 counterexample: a configuration requesting τ = 1, random walk 1,
noise density 1 yields the same effective parameters as one requesting
τ = 240, random walk 17, noise density 3 — and neither request is honored:
the parameters are not configurable. -/
theorem spec_C8_counterexample :
    effectiveEvParams ⟨1, 1, 1⟩ = effectiveEvParams ⟨240, 17, 3⟩ ∧
      effectiveEvParams ⟨1, 1, 1⟩ ≠ (1, 1, 1) := by
  refine ⟨rfl, ?_⟩
  simp [effectiveEvParams, ev_corellation_time]

/-- C8 (amended): the noise-model parameters of the vision stream are the
fixed compile-time constants τ = 60 s, random-walk density 2.0 and noise
density 2·10⁻⁴, identical whatever the configuration requests. -/
theorem spec_C8 :
    (∀ cfg : NoiseConfig,
      effectiveEvParams cfg = (ev_corellation_time, ev_random_walk, ev_noise_density)) ∧
    ev_corellation_time = 60 ∧ ev_random_walk = 2 ∧ ev_noise_density = 1/5000 :=
  ⟨fun _ => rfl, rfl, rfl, rfl⟩

/-! ### Update Coordinator: telemetry withheld until first inbound -/

/-- Events seen by the Update Coordinator: an inbound datagram from the
peer, or a simulation tick that would send telemetry. -/
inductive BridgeEvent
  | recv
  | tick
  deriving DecidableEq

/-- Modelled from the spec: the `received_first_referenc_` flag
(`src/include/gazebo_mavlink_interface.h:124`, initialized `false` in the
constructor) is set by the first inbound datagram, which also establishes
the peer address `_srcaddr` (line 238); a tick sends telemetry only once
the flag is set. Returns (new flag, whether telemetry was sent). -/
def coordStep : Bool → BridgeEvent → Bool × Bool
  | _, .recv => (true, false)
  | b, .tick => (b, b)

/-- Number of telemetry sends over a run of the Update Coordinator. -/
def coordSends : Bool → List BridgeEvent → Nat
  | _, [] => 0
  | b, e :: es =>
    match coordStep b e with
    | (b1, sent) => (if sent then 1 else 0) + coordSends b1 es

/-- C9: starting from the freshly constructed bridge, a run containing no
inbound datagram sends no telemetry at all; the first inbound datagram
flips the flag; while the flag is down a tick is silent, and once it is up
a tick sends. -/
theorem spec_C9 :
    (∀ evs : List BridgeEvent, BridgeEvent.recv ∉ evs → coordSends false evs = 0) ∧
    (∀ b : Bool, coordStep b .recv = (true, false)) ∧
    coordStep false .tick = (false, false) ∧
    coordStep true .tick = (true, true) := by
  refine ⟨?_, fun b => rfl, rfl, rfl⟩
  intro evs h
  induction evs with
  | nil => rfl
  | cons e es ih =>
    have he : e ≠ BridgeEvent.recv := fun hr => h (hr ▸ List.mem_cons_self e es)
    have hes : BridgeEvent.recv ∉ es := fun hr => h (List.mem_cons_of_mem e hr)
    cases e with
    | recv => exact absurd rfl he
    | tick => simpa [coordSends, coordStep] using ih hes

/-- C9 witness: two ticks with no inbound datagram send nothing. -/
theorem spec_C9_witness :
    coordSends false [BridgeEvent.tick, BridgeEvent.tick] = 0 :=
  spec_C9.1 [BridgeEvent.tick, BridgeEvent.tick] (by decide)

/-! ### Random engine determinism -/

/-- From the source (`src/include/gazebo_mavlink_interface.h:233`): the
noise pipeline draws from `std::default_random_engine rand_`; modelled as
the minimal standard linear congruential engine this aliases in practice. -/
def engineNext (s : Nat) : Nat := s * 16807 % 2147483647

/-- From the source: the constructor initializer list
(`src/include/gazebo_mavlink_interface.h:85-112`) does not seed `rand_`
and the class exposes no seeding interface, so every instance starts from
the engine's fixed default seed; the `Unit` argument mirrors the
seed-less default construction. -/
def mkEngine (_u : Unit) : Nat := 1

/-- Modelled from the spec: the telemetry pipeline threading the engine
state through successive ticks; each tick perturbs its true value with the
next engine draw. -/
def bridgeRunAux : Nat → List ℚ → List ℚ
  | _, [] => []
  | s, v :: vs =>
    let s1 := engineNext s
    (v + (s1 : ℚ) / 2147483647) :: bridgeRunAux s1 vs

/-- A whole run of a freshly (default-)constructed bridge instance. -/
def bridgeRun (u : Unit) (ticks : List ℚ) : List ℚ := bridgeRunAux (mkEngine u) ticks

/-- C10: two separately constructed bridge instances fed the identical
sequence of tick inputs emit identical noisy telemetry — the pipeline is a
deterministic function of its inputs, because default construction always
starts the unseeded engine from the same fixed seed. -/
theorem spec_C10 (u1 u2 : Unit) (ticks : List ℚ) :
    bridgeRun u1 ticks = bridgeRun u2 ticks ∧ mkEngine u1 = mkEngine u2 :=
  ⟨rfl, rfl⟩
